import Mathlib

/-!
Shallow embedding of the quiz-session controller of
`src/frontend/src/App.js` (the FSSP test mini-app).

The controller is a single React component whose state variables are
modelled as fields of `AppState`.  Each event handler of the source is
translated to a pure state-transformer; asynchronous remote calls are
modelled by a Boolean outcome parameter (`true` = the `fetch` resolved,
`false` = it rejected with a transport error) and, for the finalize call
whose in-flight window matters, by a separate completion event.  Ghost
counters (`answerCalls`, `finishCalls`, `difficultyCalls`, `alerts`)
record how many times each remote call / user-visible alert was issued;
they change nothing else and let theorems speak about "a request was
(not) sent".
-/

namespace FsspApp

/-- The `screen` state variable of `App.js` line 12:
`specialization, userInfo, difficulty, test, result, stats`. -/
inductive Screen
  | specialization
  | userInfo
  | difficulty
  | test
  | result
  | stats
deriving DecidableEq, Repr

/-- The component state of `App.js` (lines 12-32), restricted to the
fields the session controller reads or writes.  `questions` keeps the
question ids (`data.questions[i].id`); prompts and option texts are
render-only.  `selectedAnswers` is the JS `Set` of 1-based option
indices; `answersHistory` is the JS object keyed by question index.
`pendingFinish` counts `POST /api/test/finish` requests issued whose
response has not yet arrived (the suspension window of
`handleFinishTest`).  The last four fields are ghost counters of issued
remote calls and of `tg.showAlert` invocations. -/
structure AppState where
  screen : Screen
  full_name : String
  position : String
  department : String
  questions : List Nat
  currentQuestion : Nat
  selectedAnswers : Finset Nat
  answersHistory : List (Nat × Finset Nat)
  timeLeft : Nat
  loading : Bool
  pendingFinish : Nat
  answerCalls : Nat
  finishCalls : Nat
  difficultyCalls : Nat
  alerts : Nat
deriving DecidableEq

/-- Lookup in the answers-history mapping (the JS object
`answersHistory[i]`): first binding for the key wins. -/
def histLookup : List (Nat × Finset Nat) → Nat → Option (Finset Nat)
  | [], _ => none
  | (k, v) :: rest, i => if i = k then some v else histLookup rest i

/-- `setAnswersHistory(prev => ({...prev, [currentQuestion]: new Set(selectedAnswers)}))`
(App.js lines 136-139): rebinding a key in a JS object.  A front cons
with first-match lookup denotes the same mapping. -/
def histInsert (h : List (Nat × Finset Nat)) (i : Nat) (v : Finset Nat) :
    List (Nat × Finset Nat) :=
  (i, v) :: h

/-- The synchronous prefix of `handleFinishTest` (App.js lines 153-163):
`setLoading(true)` and the issue of `POST /api/test/finish`.  The
function then suspends awaiting the response; the remainder is
`finishResponse`. -/
def handleFinishTest (s : AppState) : AppState :=
  { s with loading := true
           finishCalls := s.finishCalls + 1
           pendingFinish := s.pendingFinish + 1 }

/-- The continuation of `handleFinishTest` after the awaited
`POST /api/test/finish` settles (App.js lines 165-173): on success the
result is stored and `setScreen('result')` runs; on a transport error an
alert is shown; `finally` clears `loading` either way. -/
def finishResponse (ok : Bool) (s : AppState) : AppState :=
  if 0 < s.pendingFinish then
    if ok then
      { s with screen := Screen.result
               loading := false
               pendingFinish := s.pendingFinish - 1 }
    else
      { s with alerts := s.alerts + 1
               loading := false
               pendingFinish := s.pendingFinish - 1 }
  else s

/-- One firing of the countdown interval (App.js lines 58-72).  The
interval exists only while `screen === 'test' && timeLeft > 0`; the
updater calls `handleFinishTest()` and returns `0` when `prev <= 1`,
else decrements. -/
def timerTick (s : AppState) : AppState :=
  if s.screen = Screen.test ∧ 0 < s.timeLeft then
    if s.timeLeft ≤ 1 then handleFinishTest { s with timeLeft := 0 }
    else { s with timeLeft := s.timeLeft - 1 }
  else s

/-- `submitAnswer` (App.js lines 122-151) with the outcome of the
awaited `POST /api/test/answer` as parameter.  The body runs inside
`try`: the member access `questions[currentQuestion].id` throws before
the fetch when the index is out of range (caught, no state change); a
fetch rejection jumps to `catch` (only a console log), skipping the
history write and the advance.  On success the selection is recorded
under `currentQuestion`, then either the cursor advances and the
selection for the next index is restored from the (pre-write) history,
or — on the last question — `handleFinishTest()` is called. -/
def submitAnswer (ok : Bool) (s : AppState) : AppState :=
  if s.currentQuestion < s.questions.length then
    let s1 := { s with answerCalls := s.answerCalls + 1 }
    if ok then
      let s2 := { s1 with
        answersHistory := histInsert s1.answersHistory s.currentQuestion s.selectedAnswers }
      if s.currentQuestion < s.questions.length - 1 then
        { s2 with currentQuestion := s.currentQuestion + 1
                  selectedAnswers :=
                    (histLookup s.answersHistory (s.currentQuestion + 1)).getD ∅ }
      else handleFinishTest s2
    else s1
  else s

/-- The pure set operation inside `toggleAnswer` (App.js lines 208-218):
delete the index if present, add it if absent. -/
def toggleSet (sel : Finset Nat) (index : Nat) : Finset Nat :=
  if index ∈ sel then sel.erase index else insert index sel

/-- `toggleAnswer` (App.js lines 208-218): replaces `selectedAnswers`
with the toggled set; touches nothing else. -/
def toggleAnswer (index : Nat) (s : AppState) : AppState :=
  { s with selectedAnswers := toggleSet s.selectedAnswers index }

/-- `goToPreviousQuestion` (App.js lines 220-225): when
`currentQuestion > 0`, decrement the cursor and restore the selection
from history for the new index (empty set when absent). -/
def goToPreviousQuestion (s : AppState) : AppState :=
  if 0 < s.currentQuestion then
    { s with currentQuestion := s.currentQuestion - 1
             selectedAnswers :=
               (histLookup s.answersHistory (s.currentQuestion - 1)).getD ∅ }
  else s

/-- `submitUserInfo` (App.js lines 194-201): when any of the three
fields is the empty string (falsy), show an alert and return; otherwise
issue the `loadDifficulties` fetch and switch to the difficulty
screen. -/
def submitUserInfo (s : AppState) : AppState :=
  if s.full_name = "" ∨ s.position = "" ∨ s.department = "" then
    { s with alerts := s.alerts + 1 }
  else
    { s with difficultyCalls := s.difficultyCalls + 1
             screen := Screen.difficulty }

/-- `startTest` (App.js lines 97-120) as one atomic event with the
outcome and payload of `POST /api/test/start`.  On success: session
fields are initialized (`currentIndex = 0`, empty selection and history,
timer armed at `time_minutes * 60`) and the screen becomes `test`; on a
transport error an alert is shown and the screen is unchanged.
`finally` clears `loading` on both paths. -/
def startTest (ok : Bool) (qs : List Nat) (mins : Nat) (s : AppState) : AppState :=
  if ok then
    { s with questions := qs
             timeLeft := mins * 60
             currentQuestion := 0
             selectedAnswers := ∅
             answersHistory := []
             screen := Screen.test
             loading := false }
  else { s with alerts := s.alerts + 1, loading := false }

/-- The events of the single-threaded event order: a timer firing, the
user actions reachable from the rendered screen, the network completions
the controller awaits. -/
inductive Event
  | tick
  | toggle (i : Nat)
  | submit (ok : Bool)
  | goBack
  | userInfoSubmit
  | startTest (ok : Bool) (qs : List Nat) (mins : Nat)
  | finishComplete (ok : Bool)
deriving DecidableEq, Repr

/-- One event of the event loop.  User actions are guarded by the screen
that renders their button: `toggleAnswer`, `submitAnswer` and
`goToPreviousQuestion` are reachable only from the test screen
(App.js lines 344-403), `submitUserInfo` only from the userInfo screen
(lines 268-315), and `selectDifficulty` — which triggers `startTest` —
only from the difficulty screen, whose buttons carry
`disabled={loading}` (lines 317-342). -/
def step (s : AppState) : Event → AppState
  | Event.tick => timerTick s
  | Event.toggle i => if s.screen = Screen.test then toggleAnswer i s else s
  | Event.submit ok => if s.screen = Screen.test then submitAnswer ok s else s
  | Event.goBack => if s.screen = Screen.test then goToPreviousQuestion s else s
  | Event.userInfoSubmit => if s.screen = Screen.userInfo then submitUserInfo s else s
  | Event.startTest ok qs mins =>
      if s.screen = Screen.difficulty ∧ s.loading = false then startTest ok qs mins s else s
  | Event.finishComplete ok => finishResponse ok s

/-- Run a sequence of events. -/
def reach (s : AppState) (es : List Event) : AppState :=
  es.foldl step s

/-- The `disabled={selectedAnswers.size === 0}` attribute of the submit
button (App.js line 396): the only empty-selection guard in the
source. -/
def submitDisabled (s : AppState) : Bool :=
  s.selectedAnswers.card = 0

/-- Whether an event is a selection toggle. -/
def isToggle : Event → Bool
  | Event.toggle _ => true
  | _ => false

/-- Whether an event is a session start. -/
def isStartTest : Event → Bool
  | Event.startTest _ _ _ => true
  | _ => false

/-- A session-start event carries a non-empty question list (any other
event vacuously). -/
def startNonempty : Event → Bool
  | Event.startTest _ qs _ => !qs.isEmpty
  | _ => true

/-- The invariant of spec §3: `currentSelection` reflects
`history[currentIndex]` if present, else empty. -/
def selInv (s : AppState) : Prop :=
  s.selectedAnswers = (histLookup s.answersHistory s.currentQuestion).getD ∅

instance (s : AppState) : Decidable (selInv s) := by
  unfold selInv; infer_instance

/-- A state on the difficulty screen, as reached after a specialization
choice and a completed profile. -/
def difficultyState : AppState :=
  { screen := Screen.difficulty
    full_name := "Ivanov I.I."
    position := "Pristav"
    department := "OSP 1"
    questions := []
    currentQuestion := 0
    selectedAnswers := ∅
    answersHistory := []
    timeLeft := 0
    loading := false
    pendingFinish := 0
    answerCalls := 0
    finishCalls := 0
    difficultyCalls := 0
    alerts := 0 }

/-- The finalize race: a one-question session with a one-minute budget;
the learner selects option 1 and waits; 59 ticks bring the clock to one
second; the next tick expires the timer (first `handleFinishTest`);
while that finish request is in flight the screen is still `test` and
the submit button is enabled, so pressing it on the (last) question runs
`submitAnswer` and a second `handleFinishTest`. -/
def doubleFinalizeTrace : List Event :=
  [Event.startTest true [7] 1, Event.toggle 1] ++
    List.replicate 59 Event.tick ++ [Event.tick, Event.submit true]

/-- A mid-session test state: three questions, cursor on the second,
question 0 already recorded. -/
def sampleTestState : AppState :=
  { difficultyState with
      screen := Screen.test
      questions := [5, 6, 7]
      currentQuestion := 1
      selectedAnswers := {2}
      answersHistory := [(0, {1})]
      timeLeft := 30 }

/-- A test state on question 0 of 2 with option 1 selected. -/
def answerFailState : AppState :=
  { difficultyState with
      screen := Screen.test
      questions := [5, 6]
      currentQuestion := 0
      selectedAnswers := {1}
      timeLeft := 100 }

/-- A test state on question 0 of 2 with nothing selected. -/
def emptySelState : AppState :=
  { answerFailState with selectedAnswers := ∅ }

/-- Submit question 0 with {1}, navigate back to it (selection restored
to the recorded {1}), then toggle option 2: the live selection diverges
from the recorded history entry until the next cursor move. -/
def invariantBreakTrace : List Event :=
  [Event.startTest true [5, 6] 10, Event.toggle 1, Event.submit true,
    Event.goBack, Event.toggle 2]

/-- A test state one second before expiry. -/
def expiryState : AppState :=
  { sampleTestState with timeLeft := 1 }

/-- A test state on the last (only) question with a non-empty
selection. -/
def lastQuestionState : AppState :=
  { difficultyState with
      screen := Screen.test
      questions := [5]
      currentQuestion := 0
      selectedAnswers := {1}
      timeLeft := 100 }

/-- A profile (userInfo) screen state with an empty full_name field. -/
def incompleteProfileState : AppState :=
  { difficultyState with screen := Screen.userInfo, full_name := "" }

theorem histLookup_histInsert (h : List (Nat × Finset Nat)) (i j : Nat) (v : Finset Nat) :
    histLookup (histInsert h i v) j = if j = i then some v else histLookup h j := by
  simp [histInsert, histLookup]

theorem reach_cons (s : AppState) (e : Event) (es : List Event) :
    reach s (e :: es) = reach (step s e) es :=
  rfl

theorem timerTick_core (s : AppState) :
    (timerTick s).currentQuestion = s.currentQuestion ∧
    (timerTick s).selectedAnswers = s.selectedAnswers ∧
    (timerTick s).answersHistory = s.answersHistory ∧
    (timerTick s).questions = s.questions ∧
    (timerTick s).screen = s.screen := by
  unfold timerTick handleFinishTest
  split
  · split <;> simp
  · simp

theorem finishResponse_core (ok : Bool) (s : AppState) :
    (finishResponse ok s).currentQuestion = s.currentQuestion ∧
    (finishResponse ok s).selectedAnswers = s.selectedAnswers ∧
    (finishResponse ok s).answersHistory = s.answersHistory ∧
    (finishResponse ok s).questions = s.questions ∧
    (finishResponse ok s).timeLeft = s.timeLeft := by
  unfold finishResponse
  split
  · split <;> simp
  · simp

theorem submitAnswer_frame (ok : Bool) (s : AppState) :
    (submitAnswer ok s).questions = s.questions ∧
    (submitAnswer ok s).timeLeft = s.timeLeft ∧
    (submitAnswer ok s).screen = s.screen := by
  unfold submitAnswer handleFinishTest
  split
  · split
    · split <;> simp
    · simp
  · simp

theorem goToPreviousQuestion_frame (s : AppState) :
    (goToPreviousQuestion s).answersHistory = s.answersHistory ∧
    (goToPreviousQuestion s).questions = s.questions ∧
    (goToPreviousQuestion s).timeLeft = s.timeLeft ∧
    (goToPreviousQuestion s).screen = s.screen := by
  unfold goToPreviousQuestion
  split <;> simp

theorem submitUserInfo_frame (s : AppState) :
    (submitUserInfo s).currentQuestion = s.currentQuestion ∧
    (submitUserInfo s).selectedAnswers = s.selectedAnswers ∧
    (submitUserInfo s).answersHistory = s.answersHistory ∧
    (submitUserInfo s).questions = s.questions ∧
    (submitUserInfo s).timeLeft = s.timeLeft := by
  unfold submitUserInfo
  split <;> simp

theorem histLookup_submitAnswer_true (s : AppState) (j : Nat)
    (h : s.currentQuestion < s.questions.length) :
    histLookup (submitAnswer true s).answersHistory j =
      if j = s.currentQuestion then some s.selectedAnswers
      else histLookup s.answersHistory j := by
  unfold submitAnswer handleFinishTest
  rw [if_pos h]
  split
  · split <;> simp [histLookup_histInsert]
  · simp_all

/-- C9: `toggleAnswer` adds the option index if absent and removes it if
present, leaves membership of every other index unchanged, never touches
the answer history, and toggling the same index twice returns the
original set (toggle is its own inverse). -/
theorem toggle_spec (sel : Finset Nat) (i j : Nat) (s : AppState) :
    toggleSet (toggleSet sel i) i = sel ∧
    (i ∈ toggleSet sel i ↔ i ∉ sel) ∧
    (j ≠ i → (j ∈ toggleSet sel i ↔ j ∈ sel)) ∧
    (toggleAnswer i s).answersHistory = s.answersHistory ∧
    (step s (Event.toggle i)).answersHistory = s.answersHistory := by
  refine ⟨?_, ?_, ?_, rfl, ?_⟩
  · by_cases h : i ∈ sel
    · have h1 : toggleSet sel i = sel.erase i := if_pos h
      have h2 : i ∉ sel.erase i := Finset.not_mem_erase i sel
      rw [h1, toggleSet, if_neg h2, Finset.insert_erase h]
    · have h1 : toggleSet sel i = insert i sel := if_neg h
      have h2 : i ∈ insert i sel := Finset.mem_insert_self i sel
      rw [h1, toggleSet, if_pos h2, Finset.erase_insert h]
  · by_cases h : i ∈ sel <;> simp [toggleSet, h]
  · intro hj
    by_cases h : i ∈ sel <;> simp [toggleSet, h, hj]
  · simp only [step]
    split <;> rfl

/-- C10: backward navigation never writes to the answer history; when it
applies (test screen, cursor positive) it decrements the cursor and
replaces the live selection by the recorded entry for the new index
(empty if none), so toggles applied since the question was last recorded
are discarded: navigating back from a toggled state yields the same
selection and history as navigating back without the toggle. -/
theorem goToPreviousQuestion_never_writes_history (s : AppState) (i : Nat) :
    (step s Event.goBack).answersHistory = s.answersHistory ∧
    (goToPreviousQuestion s).answersHistory = s.answersHistory ∧
    (s.screen = Screen.test → 0 < s.currentQuestion →
      (step s Event.goBack).currentQuestion = s.currentQuestion - 1 ∧
      (step s Event.goBack).selectedAnswers =
        (histLookup s.answersHistory (s.currentQuestion - 1)).getD ∅ ∧
      (step (step s (Event.toggle i)) Event.goBack).selectedAnswers =
        (step s Event.goBack).selectedAnswers ∧
      (step (step s (Event.toggle i)) Event.goBack).answersHistory =
        s.answersHistory) := by
  refine ⟨?_, (goToPreviousQuestion_frame s).1, ?_⟩
  · simp only [step]
    split
    · exact (goToPreviousQuestion_frame s).1
    · rfl
  · intro hs h0
    simp [step, hs, toggleAnswer, goToPreviousQuestion, h0]

/-- C8: submitting the profile with any of the three required fields
empty issues no network call and changes no state other than showing the
alert: the screen stays `userInfo` and every field is unchanged. -/
theorem submitUserInfo_rejects_incomplete (s : AppState)
    (hs : s.screen = Screen.userInfo)
    (h : s.full_name = "" ∨ s.position = "" ∨ s.department = "") :
    step s Event.userInfoSubmit = { s with alerts := s.alerts + 1 } := by
  simp only [step, if_pos hs, submitUserInfo]
  rw [if_pos h]

/-- C8 witness: the profile state with an empty full name. -/
theorem submitUserInfo_rejects_incomplete_witness :
    step incompleteProfileState Event.userInfoSubmit =
      { incompleteProfileState with alerts := incompleteProfileState.alerts + 1 } :=
  submitUserInfo_rejects_incomplete incompleteProfileState rfl (Or.inl rfl)

/-- C2 counterexample: on the test screen at question 0 of 2 with option
1 selected, a transport failure of `POST /api/test/answer` leaves the
cursor at 0 (not advanced to 1), writes nothing into history, and does
not trigger finalize — the failed `await fetch` jumps to `catch` before
the history write and the advance (App.js lines 124-150), so the claimed
advance-despite-failure is false at this input. -/
theorem submit_transport_failure_stalls :
    (step answerFailState (Event.submit false)).currentQuestion = 0 ∧
    (step answerFailState (Event.submit false)).currentQuestion ≠
      answerFailState.currentQuestion + 1 ∧
    histLookup (step answerFailState (Event.submit false)).answersHistory 0 = none ∧
    (step answerFailState (Event.submit false)).pendingFinish = 0 ∧
    (step answerFailState (Event.submit false)).finishCalls = 0 := by
  decide

/-- C2 (amended): a transport failure of `POST /api/test/answer` is
swallowed (only logged): it leaves the cursor, the history, the live
selection, the screen and the finalize state unchanged, so the learner
stays on the same question and can resubmit; the cursor advances only
when the fetch resolves. -/
theorem submit_transport_failure_no_local_change (s : AppState)
    (hs : s.screen = Screen.test) :
    (step s (Event.submit false)).currentQuestion = s.currentQuestion ∧
    (step s (Event.submit false)).answersHistory = s.answersHistory ∧
    (step s (Event.submit false)).selectedAnswers = s.selectedAnswers ∧
    (step s (Event.submit false)).screen = Screen.test ∧
    (step s (Event.submit false)).pendingFinish = s.pendingFinish ∧
    (step s (Event.submit false)).finishCalls = s.finishCalls := by
  simp only [step, if_pos hs, submitAnswer]
  split <;> simp [hs]

/-- C2 witness: the amended statement at the concrete failing state. -/
theorem submit_transport_failure_no_local_change_witness :
    (step answerFailState (Event.submit false)).currentQuestion =
      answerFailState.currentQuestion ∧
    (step answerFailState (Event.submit false)).answersHistory =
      answerFailState.answersHistory ∧
    (step answerFailState (Event.submit false)).selectedAnswers =
      answerFailState.selectedAnswers ∧
    (step answerFailState (Event.submit false)).screen = Screen.test ∧
    (step answerFailState (Event.submit false)).pendingFinish =
      answerFailState.pendingFinish ∧
    (step answerFailState (Event.submit false)).finishCalls =
      answerFailState.finishCalls :=
  submit_transport_failure_no_local_change answerFailState rfl

/-- C3 counterexample: on the test screen at question 0 of 2 with an
empty selection, invoking `submitAnswer` does not no-op: it issues the
`POST /api/test/answer` request, records the empty set in history, and
advances the cursor — the source has no emptiness check inside
`submitAnswer`. -/
theorem submit_empty_selection_not_rejected :
    (step emptySelState (Event.submit true)).answerCalls = 1 ∧
    histLookup (step emptySelState (Event.submit true)).answersHistory 0 =
      some ∅ ∧
    (step emptySelState (Event.submit true)).currentQuestion = 1 ∧
    emptySelState.selectedAnswers = ∅ := by
  decide

/-- C3 (amended): the empty-selection guard exists only at the UI
affordance level — the submit button carries
`disabled={selectedAnswers.size === 0}` — while the `submitAnswer`
operation itself performs no emptiness check: invoked with an empty
selection it still sends the request, records the empty set under the
current index, and advances the cursor (or triggers finalize on the last
question). -/
theorem submit_empty_selection_guard_is_ui_only (s : AppState)
    (hs : s.screen = Screen.test) (hsel : s.selectedAnswers = ∅)
    (hq : s.currentQuestion < s.questions.length) :
    submitDisabled s = true ∧
    (step s (Event.submit true)).answerCalls = s.answerCalls + 1 ∧
    histLookup (step s (Event.submit true)).answersHistory s.currentQuestion =
      some ∅ ∧
    ((step s (Event.submit true)).currentQuestion = s.currentQuestion + 1 ∨
      (step s (Event.submit true)).pendingFinish = s.pendingFinish + 1) := by
  refine ⟨by simp [submitDisabled, hsel], ?_, ?_, ?_⟩
  · simp only [step, if_pos hs, submitAnswer, handleFinishTest]
    rw [if_pos hq]
    split
    · split <;> simp
    · simp_all
  · rw [step, if_pos hs, histLookup_submitAnswer_true s s.currentQuestion hq,
      if_pos rfl, hsel]
  · simp only [step, if_pos hs, submitAnswer, handleFinishTest]
    rw [if_pos hq]
    by_cases hadv : s.currentQuestion < s.questions.length - 1
    · exact Or.inl (by rw [if_pos trivial, if_pos hadv])
    · exact Or.inr (by rw [if_pos trivial, if_neg hadv])

/-- C3 witness: the amended statement at the concrete empty-selection
state. -/
theorem submit_empty_selection_guard_is_ui_only_witness :
    submitDisabled emptySelState = true ∧
    (step emptySelState (Event.submit true)).answerCalls =
      emptySelState.answerCalls + 1 ∧
    histLookup (step emptySelState (Event.submit true)).answersHistory
      emptySelState.currentQuestion = some ∅ ∧
    ((step emptySelState (Event.submit true)).currentQuestion =
        emptySelState.currentQuestion + 1 ∨
      (step emptySelState (Event.submit true)).pendingFinish =
        emptySelState.pendingFinish + 1) :=
  submit_empty_selection_guard_is_ui_only emptySelState rfl rfl (by decide)

theorem answersHistory_step_frame (s : AppState) (e : Event)
    (hs : s.screen = Screen.test) :
    (step s e).answersHistory = s.answersHistory ∨
    (e = Event.submit true ∧ s.currentQuestion < s.questions.length ∧
      (step s e).answersHistory =
        histInsert s.answersHistory s.currentQuestion s.selectedAnswers) := by
  cases e with
  | tick => exact Or.inl (timerTick_core s).2.2.1
  | toggle i =>
      left
      simp only [step]
      split <;> rfl
  | submit ok =>
      simp only [step, if_pos hs]
      cases ok
      · left
        simp only [submitAnswer]
        split <;> rfl
      · by_cases hq : s.currentQuestion < s.questions.length
        · refine Or.inr ⟨rfl, hq, ?_⟩
          simp only [submitAnswer, handleFinishTest]
          rw [if_pos hq, if_pos trivial]
          split <;> rfl
        · left
          simp only [submitAnswer]
          rw [if_neg hq]
  | goBack =>
      left
      simp only [step]
      split
      all_goals first
        | rfl
        | exact (goToPreviousQuestion_frame s).1
  | userInfoSubmit =>
      left
      simp [step, hs]
  | startTest ok qs mins =>
      left
      simp [step, hs]
  | finishComplete ok => exact Or.inl (finishResponse_core ok s).2.2.1

/-- C4: within a session (test screen), history entries change only when
a forward submission succeeds at the current index, which records
exactly the live selection there; and whenever the cursor arrives at an
index — backward navigation, or forward advance past a submission — the
restored selection is exactly the recorded entry for that index, the
empty set if none. -/
theorem history_roundtrip_restore (s : AppState) (e : Event) (j : Nat)
    (hs : s.screen = Screen.test) :
    (histLookup (step s e).answersHistory j ≠ histLookup s.answersHistory j →
      e = Event.submit true ∧ s.currentQuestion = j ∧
      histLookup (step s e).answersHistory j = some s.selectedAnswers) ∧
    (0 < s.currentQuestion →
      (step s Event.goBack).selectedAnswers =
        (histLookup (step s Event.goBack).answersHistory
          ((step s Event.goBack).currentQuestion)).getD ∅) ∧
    (s.currentQuestion + 1 < s.questions.length →
      (step s (Event.submit true)).currentQuestion = s.currentQuestion + 1 ∧
      (step s (Event.submit true)).selectedAnswers =
        (histLookup (step s (Event.submit true)).answersHistory
          (s.currentQuestion + 1)).getD ∅) := by
  refine ⟨?_, ?_, ?_⟩
  · intro hne
    rcases answersHistory_step_frame s e hs with hfr | ⟨he, hq, hh⟩
    · exact absurd (by rw [hfr]) hne
    · subst he
      by_cases hj : j = s.currentQuestion
      · subst hj
        refine ⟨rfl, rfl, ?_⟩
        rw [hh, histLookup_histInsert, if_pos rfl]
      · exact absurd (by rw [hh, histLookup_histInsert, if_neg hj]) hne
  · intro h0
    simp [step, hs, goToPreviousQuestion, h0]
  · intro hadv
    have hq : s.currentQuestion < s.questions.length := Nat.lt_of_succ_lt hadv
    have hlt : s.currentQuestion < s.questions.length - 1 := by omega
    simp only [step, if_pos hs, submitAnswer, handleFinishTest]
    rw [if_pos hq, if_pos trivial, if_pos hlt]
    exact ⟨rfl, by simp [histLookup_histInsert, Nat.succ_ne_self]⟩

/-- C4 witness: the statement at a concrete mid-session state, for a
backward navigation and index 0. -/
theorem history_roundtrip_restore_witness :
    (histLookup (step sampleTestState Event.goBack).answersHistory 0 ≠
        histLookup sampleTestState.answersHistory 0 →
      Event.goBack = Event.submit true ∧ sampleTestState.currentQuestion = 0 ∧
      histLookup (step sampleTestState Event.goBack).answersHistory 0 =
        some sampleTestState.selectedAnswers) ∧
    (0 < sampleTestState.currentQuestion →
      (step sampleTestState Event.goBack).selectedAnswers =
        (histLookup (step sampleTestState Event.goBack).answersHistory
          ((step sampleTestState Event.goBack).currentQuestion)).getD ∅) ∧
    (sampleTestState.currentQuestion + 1 < sampleTestState.questions.length →
      (step sampleTestState (Event.submit true)).currentQuestion =
        sampleTestState.currentQuestion + 1 ∧
      (step sampleTestState (Event.submit true)).selectedAnswers =
        (histLookup (step sampleTestState (Event.submit true)).answersHistory
          (sampleTestState.currentQuestion + 1)).getD ∅) :=
  history_roundtrip_restore sampleTestState Event.goBack 0 rfl

theorem selInv_startTest_ok (qs : List Nat) (mins : Nat) (t : AppState) :
    selInv (startTest true qs mins t) := by
  simp [startTest, selInv, histLookup]

theorem selInv_goPrev_pos (t : AppState) (h0 : 0 < t.currentQuestion) :
    selInv (goToPreviousQuestion t) := by
  unfold goToPreviousQuestion
  rw [if_pos h0]
  simp [selInv]

theorem selInv_submit_ok (t : AppState)
    (hq : t.currentQuestion < t.questions.length) :
    selInv (submitAnswer true t) := by
  by_cases hadv : t.currentQuestion < t.questions.length - 1
  · simp [submitAnswer, handleFinishTest, hq, hadv, selInv, histLookup_histInsert,
      Nat.succ_ne_self]
  · simp [submitAnswer, handleFinishTest, hq, hadv, selInv, histLookup_histInsert]

theorem selInv_submitAnswer (ok : Bool) (s : AppState) (h : selInv s) :
    selInv (submitAnswer ok s) := by
  cases ok
  · unfold submitAnswer
    split
    · simpa [selInv] using h
    · exact h
  · by_cases hq : s.currentQuestion < s.questions.length
    · exact selInv_submit_ok s hq
    · unfold submitAnswer
      rw [if_neg hq]
      exact h

theorem selInv_goPrev (s : AppState) (h : selInv s) :
    selInv (goToPreviousQuestion s) := by
  by_cases h0 : 0 < s.currentQuestion
  · exact selInv_goPrev_pos s h0
  · unfold goToPreviousQuestion
    rw [if_neg h0]
    exact h

theorem selInv_timerTick (s : AppState) (h : selInv s) : selInv (timerTick s) := by
  unfold timerTick handleFinishTest
  split
  · split
    · simpa [selInv] using h
    · simpa [selInv] using h
  · exact h

theorem selInv_finishResponse (ok : Bool) (s : AppState) (h : selInv s) :
    selInv (finishResponse ok s) := by
  unfold finishResponse
  split
  · split
    · simpa [selInv] using h
    · simpa [selInv] using h
  · exact h

theorem selInv_submitUserInfo (s : AppState) (h : selInv s) :
    selInv (submitUserInfo s) := by
  unfold submitUserInfo
  split
  · simpa [selInv] using h
  · simpa [selInv] using h

theorem selInv_startTest (ok : Bool) (qs : List Nat) (mins : Nat) (s : AppState)
    (h : selInv s) : selInv (startTest ok qs mins s) := by
  cases ok
  · unfold startTest
    simpa [selInv] using h
  · exact selInv_startTest_ok qs mins s

theorem selInv_toggleFree_step (s : AppState) (e : Event) (h : selInv s)
    (ht : isToggle e = false) : selInv (step s e) := by
  cases e with
  | tick => exact selInv_timerTick s h
  | toggle i => simp [isToggle] at ht
  | submit ok =>
      simp only [step]
      split
      · exact selInv_submitAnswer ok s h
      · exact h
  | goBack =>
      simp only [step]
      split
      · exact selInv_goPrev s h
      · exact h
  | userInfoSubmit =>
      simp only [step]
      split
      · exact selInv_submitUserInfo s h
      · exact h
  | startTest ok qs mins =>
      simp only [step]
      split
      · exact selInv_startTest ok qs mins s h
      · exact h
  | finishComplete ok => exact selInv_finishResponse ok s h

theorem selInv_toggleFree_reach (s : AppState) (es : List Event) (h : selInv s)
    (hes : ∀ e ∈ es, isToggle e = false) : selInv (reach s es) := by
  induction es generalizing s with
  | nil => exact h
  | cons e es ih =>
      rw [reach_cons]
      exact ih (step s e)
        (selInv_toggleFree_step s e h (hes e (List.mem_cons_self e es)))
        (fun e' he' => hes e' (List.mem_cons_of_mem e he'))

/-- C5 counterexample: start a two-question session, select {1} on
question 0, submit, navigate back (selection correctly restored to the
recorded {1}), then toggle option 2: the live selection is {1, 2} while
`history[0]` still records {1} — the claimed invariant fails in this
reachable state. -/
theorem toggle_breaks_selection_invariant :
    (reach difficultyState invariantBreakTrace).selectedAnswers = {1, 2} ∧
    (histLookup (reach difficultyState invariantBreakTrace).answersHistory
      (reach difficultyState invariantBreakTrace).currentQuestion).getD ∅ = {1} ∧
    ¬ selInv (reach difficultyState invariantBreakTrace) := by
  decide

/-- C5 (amended): the invariant `currentSelection =
history[currentIndex] (else empty)` holds after session start, is
re-established by every cursor move (successful forward submission or
backward navigation), and is preserved along any sequence of events that
contains no toggle; a toggle breaks it until the next cursor move, since
toggling edits the live selection without touching history. -/
theorem selection_invariant_between_toggles (s t : AppState) (es : List Event)
    (qs : List Nat) (mins : Nat)
    (hinv : selInv s) (hes : ∀ e ∈ es, isToggle e = false) :
    selInv (reach s es) ∧
    selInv (startTest true qs mins t) ∧
    (0 < t.currentQuestion → selInv (goToPreviousQuestion t)) ∧
    (t.currentQuestion < t.questions.length → selInv (submitAnswer true t)) :=
  ⟨selInv_toggleFree_reach s es hinv hes, selInv_startTest_ok qs mins t,
    fun h0 => selInv_goPrev_pos t h0, fun hq => selInv_submit_ok t hq⟩

/-- C5 witness: the amended statement at a concrete fresh state and a
concrete toggle-free trace. -/
theorem selection_invariant_between_toggles_witness :
    selInv (reach emptySelState [Event.submit true, Event.goBack]) ∧
    selInv (startTest true [9] 3 sampleTestState) ∧
    (0 < sampleTestState.currentQuestion →
      selInv (goToPreviousQuestion sampleTestState)) ∧
    (sampleTestState.currentQuestion < sampleTestState.questions.length →
      selInv (submitAnswer true sampleTestState)) :=
  selection_invariant_between_toggles emptySelState sampleTestState
    [Event.submit true, Event.goBack] [9] 3 (by decide) (by decide)

theorem timeLeft_step_zero (s : AppState) (e : Event) (h : s.timeLeft = 0)
    (hns : isStartTest e = false) : (step s e).timeLeft = 0 := by
  cases e with
  | tick =>
      show (timerTick s).timeLeft = 0
      simp [timerTick, h]
  | toggle i =>
      simp only [step]
      split <;> exact h
  | submit ok =>
      simp only [step]
      split
      all_goals first
        | exact h
        | (rw [(submitAnswer_frame ok s).2.1]; exact h)
  | goBack =>
      simp only [step]
      split
      all_goals first
        | exact h
        | (rw [(goToPreviousQuestion_frame s).2.2.1]; exact h)
  | userInfoSubmit =>
      simp only [step]
      split
      all_goals first
        | exact h
        | (rw [(submitUserInfo_frame s).2.2.2.2]; exact h)
  | startTest ok qs mins => simp [isStartTest] at hns
  | finishComplete ok =>
      show (finishResponse ok s).timeLeft = 0
      rw [(finishResponse_core ok s).2.2.2.2]
      exact h

theorem timeLeft_reach_zero (s : AppState) (es : List Event) (h : s.timeLeft = 0)
    (hes : ∀ e ∈ es, isStartTest e = false) : (reach s es).timeLeft = 0 := by
  induction es generalizing s with
  | nil => exact h
  | cons e es ih =>
      rw [reach_cons]
      exact ih (step s e)
        (timeLeft_step_zero s e h (hes e (List.mem_cons_self e es)))
        (fun e' he' => hes e' (List.mem_cons_of_mem e he'))

theorem timerTick_noop_zero (s : AppState) (h : s.timeLeft = 0) :
    timerTick s = s := by
  simp [timerTick, h]

/-- C6: a tick on the test screen at `timeLeft = 1` sets the clock to 0
and starts finalize exactly once; the countdown then never fires again —
along any continuation without a new session start the clock stays 0 and
a tick is a no-op — and the finish response alone moves the session to
the result screen, with no further user action. -/
theorem timer_expiry_finalizes_once (s : AppState) (es : List Event)
    (hs : s.screen = Screen.test) (ht : s.timeLeft = 1)
    (hes : ∀ e ∈ es, isStartTest e = false) :
    (step s Event.tick).timeLeft = 0 ∧
    (step s Event.tick).finishCalls = s.finishCalls + 1 ∧
    (step s Event.tick).pendingFinish = s.pendingFinish + 1 ∧
    (reach (step s Event.tick) es).timeLeft = 0 ∧
    step (reach (step s Event.tick) es) Event.tick =
      reach (step s Event.tick) es ∧
    (step (step s Event.tick) (Event.finishComplete true)).screen =
      Screen.result := by
  have htick : step s Event.tick = handleFinishTest { s with timeLeft := 0 } := by
    show timerTick s = _
    unfold timerTick
    rw [ht]
    simp [hs]
  have h0 : (step s Event.tick).timeLeft = 0 := by rw [htick]; rfl
  have hr : (reach (step s Event.tick) es).timeLeft = 0 :=
    timeLeft_reach_zero _ es h0 hes
  refine ⟨h0, by rw [htick]; rfl, by rw [htick]; rfl, hr, ?_, ?_⟩
  · show timerTick _ = _
    exact timerTick_noop_zero _ hr
  · rw [htick]
    show (finishResponse true _).screen = Screen.result
    simp [finishResponse, handleFinishTest]

/-- C6 witness: a concrete test state one second before expiry and a
concrete start-free continuation. -/
theorem timer_expiry_finalizes_once_witness :
    (step expiryState Event.tick).timeLeft = 0 ∧
    (step expiryState Event.tick).finishCalls = expiryState.finishCalls + 1 ∧
    (step expiryState Event.tick).pendingFinish =
      expiryState.pendingFinish + 1 ∧
    (reach (step expiryState Event.tick)
      [Event.submit true, Event.goBack]).timeLeft = 0 ∧
    step (reach (step expiryState Event.tick)
      [Event.submit true, Event.goBack]) Event.tick =
      reach (step expiryState Event.tick) [Event.submit true, Event.goBack] ∧
    (step (step expiryState Event.tick) (Event.finishComplete true)).screen =
      Screen.result :=
  timer_expiry_finalizes_once expiryState [Event.submit true, Event.goBack]
    rfl rfl (by decide)

theorem cursor_bound_step (s : AppState) (e : Event)
    (h : s.currentQuestion < s.questions.length)
    (hne : startNonempty e = true) :
    (step s e).currentQuestion < (step s e).questions.length := by
  cases e with
  | tick =>
      show (timerTick s).currentQuestion < (timerTick s).questions.length
      rw [(timerTick_core s).1, (timerTick_core s).2.2.2.1]
      exact h
  | toggle i =>
      simp only [step]
      split <;> exact h
  | submit ok =>
      simp only [step]
      split
      · cases ok
        · unfold submitAnswer
          split <;> exact h
        · by_cases hadv : s.currentQuestion < s.questions.length - 1
          · simp only [submitAnswer, handleFinishTest]
            simp [h, hadv]
            omega
          · simp only [submitAnswer, handleFinishTest]
            simp [h, hadv]
      · exact h
  | goBack =>
      simp only [step]
      split
      · unfold goToPreviousQuestion
        split
        · simp only []
          omega
        · exact h
      · exact h
  | userInfoSubmit =>
      simp only [step]
      split
      · unfold submitUserInfo
        split <;> exact h
      · exact h
  | startTest ok qs mins =>
      simp only [step]
      split
      · cases ok
        · exact h
        · cases qs with
          | nil => simp [startNonempty] at hne
          | cons a l => simp [startTest]
      · exact h
  | finishComplete ok =>
      show (finishResponse ok s).currentQuestion <
        (finishResponse ok s).questions.length
      rw [(finishResponse_core ok s).1, (finishResponse_core ok s).2.2.2.1]
      exact h

theorem cursor_bound_reach (s : AppState) (es : List Event)
    (h : s.currentQuestion < s.questions.length)
    (hes : ∀ e ∈ es, startNonempty e = true) :
    (reach s es).currentQuestion < (reach s es).questions.length := by
  induction es generalizing s with
  | nil => exact h
  | cons e es ih =>
      rw [reach_cons]
      exact ih (step s e)
        (cursor_bound_step s e h (hes e (List.mem_cons_self e es)))
        (fun e' he' => hes e' (List.mem_cons_of_mem e he'))

/-- C7: the cursor stays inside [0, len(questions)) along any event
sequence whose session starts carry non-empty question lists; and a
successful submission on the last index routes to finalize — one
`POST /api/test/finish` started, cursor unchanged — instead of
incrementing the cursor. -/
theorem cursor_in_range_last_submit_finalizes (s : AppState) (es : List Event)
    (hcq : s.currentQuestion < s.questions.length)
    (hes : ∀ e ∈ es, startNonempty e = true) :
    (reach s es).currentQuestion < (reach s es).questions.length ∧
    (s.screen = Screen.test → s.currentQuestion = s.questions.length - 1 →
      s.selectedAnswers ≠ ∅ →
      (step s (Event.submit true)).currentQuestion = s.currentQuestion ∧
      (step s (Event.submit true)).pendingFinish = s.pendingFinish + 1 ∧
      (step s (Event.submit true)).finishCalls = s.finishCalls + 1) := by
  refine ⟨cursor_bound_reach s es hcq hes, ?_⟩
  intro hs hlast _
  have hadv : ¬ s.currentQuestion < s.questions.length - 1 := by omega
  simp [step, hs, submitAnswer, handleFinishTest, hcq, hadv]

/-- C7 witness: a concrete last-question state and a concrete
continuation. -/
theorem cursor_in_range_last_submit_finalizes_witness :
    (reach lastQuestionState [Event.tick, Event.goBack]).currentQuestion <
      (reach lastQuestionState [Event.tick, Event.goBack]).questions.length ∧
    (lastQuestionState.screen = Screen.test →
      lastQuestionState.currentQuestion =
        lastQuestionState.questions.length - 1 →
      lastQuestionState.selectedAnswers ≠ ∅ →
      (step lastQuestionState (Event.submit true)).currentQuestion =
        lastQuestionState.currentQuestion ∧
      (step lastQuestionState (Event.submit true)).pendingFinish =
        lastQuestionState.pendingFinish + 1 ∧
      (step lastQuestionState (Event.submit true)).finishCalls =
        lastQuestionState.finishCalls + 1) :=
  cursor_in_range_last_submit_finalizes lastQuestionState
    [Event.tick, Event.goBack] (by decide) (by decide)

set_option maxRecDepth 4000 in
/-- C1 (code bug): the source has no session-scoped already-finalizing
flag. Running `doubleFinalizeTrace` from the difficulty screen: after
the 62-event prefix the timer has expired and started one
`POST /api/test/finish` (finishCalls = 1, pendingFinish = 1), yet the
screen is still `test` and the submit button is still enabled
(`submitDisabled = false`); the final last-question submission then
starts a second finalize, so the whole trace issues finishCalls = 2 for
one session — the claimed at-most-once guarantee is violated. -/
theorem finish_posted_twice_in_one_session :
    (reach difficultyState (doubleFinalizeTrace.take 62)).finishCalls = 1 ∧
    (reach difficultyState (doubleFinalizeTrace.take 62)).pendingFinish = 1 ∧
    (reach difficultyState (doubleFinalizeTrace.take 62)).screen =
      Screen.test ∧
    submitDisabled (reach difficultyState (doubleFinalizeTrace.take 62)) =
      false ∧
    (reach difficultyState doubleFinalizeTrace).finishCalls = 2 := by
  decide

end FsspApp
